import Mathlib

/-!
Verification of the quote0_api update pipeline against its design spec.

The JavaScript sources are shallowly embedded: JS strings are modelled as
`List Char` (`Str`), DynamoDB tables as Lean lists with put-replaces-by-key
semantics, awaited I/O calls as injected outcome parameters
(`Except JsError _` for calls that can throw, `Option` / `Bool` oracles for
the HTTP client), and wall-clock values (`Date.now()`, `new Date()`) as
explicit `Nat` / date parameters.  Every definition is translated from the
repository source file named in its doc comment.
-/

/-- JS strings are sequences of UTF-16 code units; modelled as lists of
characters. -/
abbrev Str := List Char

/-- Coerces a Lean string literal to the `Str` model. -/
def str (s : String) : Str := s.toList

/-- Error objects thrown by the AWS SDK / axios, as observed by the JS
`catch` blocks (`error.message`, `error.stack`). -/
structure JsError where
  message : Str
  stack : Str
deriving DecidableEq, Repr

/-- Event item as stored in the events table (source:
`dynamoDbService.js` `createEvent` item shape) and consumed by
`formatMessage` (field `event` holds the display text).  `createdAt` and
`updatedAt` carry the injected clock values; the TTL attribute is enforced
by the storage layer and carries no behaviour in the pipeline. -/
structure EventItem where
  date : Str
  id : Nat
  event : Str
  createdAt : Nat
  updatedAt : Option Nat
deriving DecidableEq, Repr

/-- Bin-collection item as stored in the bin_collection table (source:
`binCollectionDbService.js`, `upsertBinCollection` item shape). -/
structure BinItem where
  date : Str
  service : Str
  day : Str
  round : Str
  schedule : Str
  updatedAt : Nat
deriving DecidableEq, Repr

/-! ## DisplayFormatterService
Source: `src/src/services/dynamoDbService.js` (second module in the file,
`displayFormatterService`) and `src/unnamed/part_006`. -/

namespace DisplayFormatterService

/-- Source constant `MAX_TITLE_LENGTH = 25`. -/
def MAX_TITLE_LENGTH : Nat := 25

/-- Source constant `MAX_LINE_LENGTH = 29`. -/
def MAX_LINE_LENGTH : Nat := 29

/-- Source constant `MAX_LINES = 3`. -/
def MAX_LINES : Nat := 3

/-- Inner loop of `formatMessage`: `for (const line of eventLines) if
(lines.length >= MAX_LINES) break; lines.push(line.substring(0,
MAX_LINE_LENGTH))`. -/
def pushLines (acc : List Str) : List Str → List Str
  | [] => acc
  | l :: ls =>
    if acc.length ≥ MAX_LINES then acc
    else pushLines (acc ++ [l.take MAX_LINE_LENGTH]) ls

/-- Outer loop of `formatMessage`: `for (const eventObj of events) if
(lines.length >= MAX_LINES) break; ... eventText.split('\n') ...`. -/
def collectLines (acc : List Str) : List EventItem → List Str
  | [] => acc
  | e :: rest =>
    if acc.length ≥ MAX_LINES then acc
    else collectLines (pushLines acc (List.splitOn '\n' e.event)) rest

/-- Padding loop of `formatMessage`: `while (lines.length < MAX_LINES)
lines.push('')`. -/
def padLines (ls : List Str) : List Str :=
  ls ++ List.replicate (MAX_LINES - ls.length) []

/-- `DisplayFormatterService.formatMessage(events)`: empty input returns
the three-empty-line body `'\n\n'`; otherwise candidate lines are
collected, truncated, padded and joined with `'\n'`. -/
def formatMessage (events : List EventItem) : Str :=
  if events.length = 0 then str "\n\n"
  else List.intercalate ['\n'] (padLines (collectLines [] events))

/-- The candidate-line formula of spec section 4.3 step 3: flatten the
events' texts split on line breaks, keep the first `MAX_LINES`, truncate
each to `MAX_LINE_LENGTH`. -/
def candidateLines (events : List EventItem) : List Str :=
  ((events.flatMap (fun e => List.splitOn '\n' e.event)).take MAX_LINES).map
    (fun l => l.take MAX_LINE_LENGTH)

/-- The `SERVICE_MAPPING` object literal of `formatSignatureFromDb`. -/
def SERVICE_MAPPING : List (Str × Str) :=
  [(str "Domestic Waste Collection Service", str "Grey bin"),
   (str "Recycling Collection Service", str "Red bin"),
   (str "Food Waste Collection Service", str "Food waste")]

/-- JS object lookup with fallback: `SERVICE_MAPPING[bc.service] ||
bc.service`. -/
def serviceMappingLookup (s : Str) : Str :=
  ((SERVICE_MAPPING.find? (fun p => decide (p.1 = s))).map (fun p => p.2)).getD s

/-- The dedup idiom `.filter((value, index, self) => self.indexOf(value)
=== index)`: keeps the first occurrence of each value, in order. -/
def jsUnique (l : List Str) : List Str :=
  l.foldl (fun acc v => if v ∈ acc then acc else acc ++ [v]) []

/-- `DisplayFormatterService.formatSignatureFromDb(binCollections)`
(source: `dynamoDbService.js` lines 267-297): maps service names through
`SERVICE_MAPPING`, dedups, joins with `", "`, wraps as
`Collect ... tmr`, truncates to `MAX_LINE_LENGTH`. -/
def formatSignatureFromDb (binCollections : List BinItem) : Str :=
  if binCollections.length = 0 then []
  else
    let binNames := jsUnique (binCollections.map (fun bc => serviceMappingLookup bc.service))
    let binsText := List.intercalate (str ", ") binNames
    let signature := str "Collect " ++ binsText ++ str " tmr"
    signature.take MAX_LINE_LENGTH

/-- Today's calendar date as seen by `new Date()` (year, month 1-12,
day 1-31). -/
structure DateYMD where
  year : Nat
  month : Nat
  day : Nat
deriving DecidableEq, Repr

/-- Decimal rendering of a number, as JS `String(n)`. -/
def natToStr (n : Nat) : Str := (Nat.repr n).toList

/-- JS `String(n).padStart(2, '0')`. -/
def pad2 (s : Str) : Str :=
  if s.length < 2 then List.replicate (2 - s.length) '0' ++ s else s

/-- `DisplayFormatterService.formatTitle()`: today's date as
`YYYY/MM/DD`, truncated to `MAX_TITLE_LENGTH`. -/
def formatTitle (today : DateYMD) : Str :=
  (natToStr today.year ++ ['/'] ++ pad2 (natToStr today.month) ++ ['/'] ++
    pad2 (natToStr today.day)).take MAX_TITLE_LENGTH

/-- Return shape of `formatDisplayFromDb`. -/
structure DisplayData where
  refreshNow : Bool
  title : Str
  message : Str
  signature : Str
deriving DecidableEq, Repr

/-- `DisplayFormatterService.formatDisplayFromDb(events, binCollections)`
(push architecture). -/
def formatDisplayFromDb (today : DateYMD) (events : List EventItem)
    (binCollections : List BinItem) : DisplayData :=
  { refreshNow := true
    title := formatTitle today
    message := formatMessage events
    signature := formatSignatureFromDb binCollections }

/-! Shape lemmas for `formatMessage`. -/

/-- The inner push loop is take-3 of the truncated lines appended to the
accumulator. -/
theorem pushLines_eq (ls : List Str) : ∀ acc : List Str, acc.length ≤ MAX_LINES →
    pushLines acc ls = (acc ++ ls.map (fun l => l.take MAX_LINE_LENGTH)).take MAX_LINES := by
  induction ls with
  | nil =>
    intro acc h
    simp [pushLines, List.take_of_length_le, h]
  | cons l ls ih =>
    intro acc h
    by_cases hlen : acc.length ≥ MAX_LINES
    · have heq : acc.length = MAX_LINES := le_antisymm h hlen
      simp only [pushLines, if_pos hlen]
      rw [List.take_append_of_le_length (by omega), List.take_of_length_le (by omega)]
    · have hlt : acc.length < MAX_LINES := lt_of_not_ge hlen
      simp only [pushLines, if_neg hlen]
      rw [ih (acc ++ [l.take MAX_LINE_LENGTH]) (by simp; omega)]
      simp [List.append_assoc]

/-- Prepending an already-cut prefix does not change a take. -/
theorem take_take_append (n : Nat) (x y : List α) :
    ((x.take n) ++ y).take n = (x ++ y).take n := by
  rcases le_or_lt x.length n with h | h
  · rw [List.take_of_length_le h]
  · rw [List.take_append_of_le_length (by simp; omega),
      List.take_append_of_le_length (by omega), List.take_take, Nat.min_self]

/-- The outer collection loop computes the truncated take-3 of the
flattened candidate lines. -/
theorem collectLines_eq (events : List EventItem) : ∀ acc : List Str,
    acc.length ≤ MAX_LINES →
    collectLines acc events =
      (acc ++ (events.flatMap (fun e => List.splitOn '\n' e.event)).map
        (fun l => l.take MAX_LINE_LENGTH)).take MAX_LINES := by
  induction events with
  | nil =>
    intro acc h
    simp [collectLines, List.take_of_length_le, h]
  | cons e rest ih =>
    intro acc h
    by_cases hlen : acc.length ≥ MAX_LINES
    · have heq : acc.length = MAX_LINES := le_antisymm h hlen
      simp only [collectLines, if_pos hlen]
      rw [List.take_append_of_le_length (by omega), List.take_of_length_le (by omega)]
    · simp only [collectLines, if_neg hlen]
      rw [pushLines_eq _ _ h, ih _ (by simp [List.length_take])]
      rw [take_take_append]
      simp [List.append_assoc]

/-- The collected lines equal the spec's candidate-line formula. -/
theorem collectLines_eq_candidates (events : List EventItem) :
    collectLines [] events = candidateLines events := by
  rw [collectLines_eq events [] (by simp [MAX_LINES])]
  simp [candidateLines, List.map_take]

end DisplayFormatterService

/-! ## DynamoDbService (events table)
Source: `src/unnamed/part_005` (the variant with `updateEvent` /
`upsertEvent` / `createEventsBatch`); `getEventsByDate` and `createEvent`
are identical in `src/src/services/dynamoDbService.js`.  The DynamoDB
table is a list of items; `PutCommand` replaces any item sharing the full
primary key `(date, id)`; `QueryCommand` on the partition key returns all
items of that date in storage order.  `uuidv4()` is modelled as a
fresh-id counter carried in the service state. -/

namespace DynamoDbService

/-- Service state: the events table plus the fresh-id supply standing in
for `uuidv4()`. -/
structure Db where
  table : List EventItem
  nextId : Nat
deriving DecidableEq, Repr

/-- DynamoDB `PutCommand`: unconditional write, replacing any item with
the same primary key `(date, id)`. -/
def putItem (table : List EventItem) (item : EventItem) : List EventItem :=
  table.filter (fun it => !(decide (it.date = item.date) && decide (it.id = item.id))) ++ [item]

/-- `DynamoDbService.getEventsByDate(date)`: `QueryCommand` on the
partition key. -/
def getEventsByDate (db : Db) (date : Str) : List EventItem :=
  db.table.filter (fun it => decide (it.date = date))

/-- `DynamoDbService.createEvent(date, eventText)`: raw insert of a fresh
item `{date, id: uuidv4(), event, created_at: now, ttl}`. -/
def createEvent (db : Db) (date eventText : Str) (now : Nat) : EventItem × Db :=
  let item : EventItem :=
    { date := date, id := db.nextId, event := eventText, createdAt := now, updatedAt := none }
  (item, { table := putItem db.table item, nextId := db.nextId + 1 })

/-- `DynamoDbService.updateEvent(date, id, eventText)`: `UpdateCommand`
setting `event` and `updated_at` on the item with key `(date, id)`. -/
def updateEvent (db : Db) (date : Str) (id : Nat) (eventText : Str) (now : Nat) : Db :=
  { db with
    table := db.table.map (fun it =>
      if it.date = date ∧ it.id = id then
        { it with event := eventText, updatedAt := some now }
      else it) }

/-- `DynamoDbService.upsertEvent(date, eventText)`: query by date; update
the first record found, else create (source: `part_005` lines 189-202). -/
def upsertEvent (db : Db) (date eventText : Str) (now : Nat) : Db :=
  match getEventsByDate db date with
  | [] => (createEvent db date eventText now).2
  | first :: _ => updateEvent db date first.id eventText now

/-- Sequential raw creations for one date, as issued by `n` inbound
single-event requests (each handler call invokes `createEvent`). -/
def createEventsSeq (db : Db) (date : Str) (texts : List Str) (now : Nat) : Db :=
  texts.foldl (fun acc t => (createEvent acc date t now).2) db

end DynamoDbService

/-! ## Claim C1 -/

/-- C1: for every list of events (including the empty list and events with
embedded line breaks), `formatMessage` produces a body equal to exactly
`MAX_LINES` (3) lines joined by single line-break characters, where the
lines are the spec's candidate lines — events in store order, each text
split on line breaks, flattened, at most 3 kept, each hard-truncated to
the `MAX_LINE_LENGTH` (29) budget — padded with empty lines; every line is
at most the per-line budget. -/
theorem C1_formatMessage_body_shape (events : List EventItem) :
    DisplayFormatterService.formatMessage events =
      List.intercalate ['\n']
        (DisplayFormatterService.padLines (DisplayFormatterService.candidateLines events)) ∧
    (DisplayFormatterService.padLines (DisplayFormatterService.candidateLines events)).length =
      DisplayFormatterService.MAX_LINES ∧
    ∀ l ∈ DisplayFormatterService.padLines (DisplayFormatterService.candidateLines events),
      l.length ≤ DisplayFormatterService.MAX_LINE_LENGTH := by
  open DisplayFormatterService in
  refine ⟨?_, ?_, ?_⟩
  · by_cases h : events.length = 0
    · have he : events = [] := List.length_eq_zero.mp h
      subst he
      decide
    · rw [formatMessage, if_neg h, collectLines_eq_candidates]
  · have hlen : (candidateLines events).length ≤ MAX_LINES := by
      simp [candidateLines, List.length_take]
    simp only [padLines, List.length_append, List.length_replicate]
    omega
  · intro l hl
    rw [DisplayFormatterService.padLines, List.mem_append] at hl
    rcases hl with h | h
    · obtain ⟨x, _, rfl⟩ := List.mem_map.mp (List.mem_of_mem_take
        (by simpa [DisplayFormatterService.candidateLines, List.map_take] using h))
      simp [List.length_take]
    · rw [List.eq_of_mem_replicate h]
      simp [DisplayFormatterService.MAX_LINE_LENGTH]

namespace DynamoDbService

/-- Freshness of the id supply: every item of the given date already in
the table has an id below the counter (true of any state reachable from
an empty table, and standing in for uuid uniqueness). -/
def FreshFor (db : Db) (d : Str) : Prop :=
  ∀ it ∈ db.table, it.date = d → it.id < db.nextId

/-- A raw create appends exactly one new item to the date's records. -/
theorem getEventsByDate_create (db : Db) (d t : Str) (now : Nat)
    (hfresh : FreshFor db d) :
    getEventsByDate (createEvent db d t now).2 d =
      getEventsByDate db d ++
        [{ date := d, id := db.nextId, event := t, createdAt := now, updatedAt := none }] := by
  show (putItem db.table _).filter _ = _
  rw [putItem, List.filter_append, List.filter_filter]
  congr 1
  · apply List.filter_congr
    intro it hit
    by_cases hd : it.date = d
    · have hlt : it.id < db.nextId := hfresh it hit hd
      simp [hd, Nat.ne_of_lt hlt]
    · simp [hd]
  · simp

/-- Create preserves freshness. -/
theorem freshFor_create (db : Db) (d d' t : Str) (now : Nat)
    (hfresh : FreshFor db d) :
    FreshFor (createEvent db d' t now).2 d := by
  intro it hit hd
  rcases List.mem_append.mp hit with hmem | hmem
  · exact lt_trans (hfresh it (List.mem_of_mem_filter hmem) hd) (Nat.lt_succ_self _)
  · rw [List.mem_singleton.mp hmem]
    exact Nat.lt_succ_self _

/-- Sequential creates add one record per text, all with pairwise
distinct ids. -/
theorem createEventsSeq_spec (d : Str) (now : Nat) (texts : List Str) : ∀ db : Db,
    FreshFor db d →
    ((getEventsByDate db d).map (fun it => it.id)).Nodup →
    (getEventsByDate (createEventsSeq db d texts now) d).length =
        (getEventsByDate db d).length + texts.length ∧
    ((getEventsByDate (createEventsSeq db d texts now) d).map (fun it => it.id)).Nodup := by
  induction texts with
  | nil =>
    intro db _ hnodup
    exact ⟨by simp [createEventsSeq], by simpa [createEventsSeq] using hnodup⟩
  | cons t ts ih =>
    intro db hfresh hnodup
    have hnew := getEventsByDate_create db d t now hfresh
    have hfresh1 : FreshFor (createEvent db d t now).2 d := freshFor_create db d d t now hfresh
    have hnodup1 :
        ((getEventsByDate (createEvent db d t now).2 d).map (fun it => it.id)).Nodup := by
      rw [hnew, List.map_append]
      rw [List.nodup_append]
      refine ⟨hnodup, by simp, ?_⟩
      intro a ha hb
      obtain ⟨it, hit, rfl⟩ := List.mem_map.mp ha
      have hlt : it.id < db.nextId :=
        hfresh it (List.mem_of_mem_filter hit) (by simpa using (List.mem_filter.mp hit).2)
      have hbval : it.id = db.nextId := by simpa using hb
      omega
    have hrest := ih (createEvent db d t now).2 hfresh1 hnodup1
    have hstep : createEventsSeq db d (t :: ts) now =
        createEventsSeq (createEvent db d t now).2 d ts now := rfl
    rw [hstep]
    refine ⟨?_, hrest.2⟩
    rw [hrest.1, hnew]
    simp
    omega

end DynamoDbService

/-! ## Claims C2 and C9 -/

/-- C2: starting from a store holding no reminder record for a date,
`upsert(date, text1)` then `upsert(date, text2)` (sequential, no
concurrency) leaves exactly one record for the date, and its text equals
`text2`. -/
theorem C2_upsert_then_upsert (db : DynamoDbService.Db) (d t1 t2 : Str) (n1 n2 : Nat)
    (h : DynamoDbService.getEventsByDate db d = []) :
    ∃ it : EventItem,
      DynamoDbService.getEventsByDate
        (DynamoDbService.upsertEvent (DynamoDbService.upsertEvent db d t1 n1) d t2 n2) d
        = [it] ∧ it.event = t2 := by
  open DynamoDbService in
  have hnone : ∀ it ∈ db.table, ¬(it.date = d) := by
    intro it hit
    have := List.filter_eq_nil_iff.mp h it hit
    simpa using this
  have hfresh : FreshFor db d := fun it hit hd => absurd hd (hnone it hit)
  have hdb1 : upsertEvent db d t1 n1 = (createEvent db d t1 n1).2 := by
    rw [upsertEvent, h]
  rw [hdb1]
  have hq1 := DynamoDbService.getEventsByDate_create db d t1 n1 hfresh
  rw [h, List.nil_append] at hq1
  have hdb2 : upsertEvent (createEvent db d t1 n1).2 d t2 n2 =
      updateEvent (createEvent db d t1 n1).2 d db.nextId t2 n2 := by
    rw [upsertEvent, hq1]
  rw [hdb2, DynamoDbService.updateEvent]
  refine ⟨{ date := d, id := db.nextId, event := t2, createdAt := n1,
            updatedAt := some n2 }, ?_, rfl⟩
  show List.filter _ (List.map _ _) = _
  rw [List.filter_map]
  have hcong : ∀ x ∈ (createEvent db d t1 n1).2.table,
      ((fun it => decide (it.date = d)) ∘ (fun it =>
        if it.date = d ∧ it.id = db.nextId then
          { it with event := t2, updatedAt := some n2 } else it)) x
      = (fun it => decide (it.date = d)) x := by
    intro x _
    by_cases hx : x.date = d ∧ x.id = db.nextId
    · simp [hx]
    · simp [hx]
  rw [List.filter_congr hcong]
  have hfe : List.filter (fun it => decide (it.date = d)) (createEvent db d t1 n1).2.table
      = getEventsByDate (createEvent db d t1 n1).2 d := rfl
  rw [hfe, hq1]
  simp

/-- Closed witness for C2 at a concrete store and date. -/
theorem C2_witness :
    ∃ it : EventItem,
      DynamoDbService.getEventsByDate
        (DynamoDbService.upsertEvent
          (DynamoDbService.upsertEvent ⟨[], 0⟩ (str "2026-01-01") (str "alpha") 1)
          (str "2026-01-01") (str "beta") 2) (str "2026-01-01")
        = [it] ∧ it.event = str "beta" :=
  C2_upsert_then_upsert ⟨[], 0⟩ (str "2026-01-01") (str "alpha") (str "beta") 1 2 rfl

/-- C9: the single-event inbound creation path always performs a raw
insert with a fresh unique id and never updates an existing record — `n`
sequential creation requests for one date leave `n` distinct records for
that date. -/
theorem C9_create_path_inserts (db : DynamoDbService.Db) (d : Str) (texts : List Str)
    (now : Nat) (h : DynamoDbService.getEventsByDate db d = []) :
    (DynamoDbService.getEventsByDate
        (DynamoDbService.createEventsSeq db d texts now) d).length = texts.length ∧
    ((DynamoDbService.getEventsByDate
        (DynamoDbService.createEventsSeq db d texts now) d).map (fun it => it.id)).Nodup := by
  have hfresh : DynamoDbService.FreshFor db d := by
    intro it hit hd
    have hmem : it ∈ DynamoDbService.getEventsByDate db d :=
      List.mem_filter.mpr ⟨hit, by simpa using hd⟩
    rw [h] at hmem
    exact absurd hmem (List.not_mem_nil it)
  have := DynamoDbService.createEventsSeq_spec d now texts db hfresh (by rw [h]; simp)
  rw [h] at this
  simpa using this

/-- Closed witness for C9: two requests for one date leave two records. -/
theorem C9_witness :
    (DynamoDbService.getEventsByDate
        (DynamoDbService.createEventsSeq ⟨[], 0⟩ (str "2026-01-01")
          [str "dentist", str "gym"] 5) (str "2026-01-01")).length = 2 :=
  (C9_create_path_inserts ⟨[], 0⟩ (str "2026-01-01") [str "dentist", str "gym"] 5 rfl).1

/-! ## BinCollectionDbService
Source: `src/src/services/binCollectionDbService.js` lines 23-145.  The
bin_collection table keys on `(date, service)`; `PutCommand` replaces the
item with that key.  DynamoDB send outcomes are injected through an
oracle in the failure-aware variant. -/

namespace BinCollectionDbService

/-- Raw collection object from the Reading API response (`service`,
`date` as `DD/MM/YYYY HH:MM:SS`, optional `day` / `round` / `schedule`,
guarded in the source by `|| ''`). -/
structure RawCollection where
  service : Str
  date : Str
  day : Option Str
  round : Option Str
  schedule : Option Str
deriving DecidableEq, Repr

/-- Date translation in `storeBinCollections`:
`const [datePart] = collection.date.split(' ');
const [day, month, year] = datePart.split('/');
return year-month-day` (a missing part renders as JS `undefined`). -/
def convertRawDate (s : Str) : Str :=
  let datePart := (List.splitOn ' ' s).headD []
  let parts := List.splitOn '/' datePart
  let day := parts.getD 0 (str "undefined")
  let month := parts.getD 1 (str "undefined")
  let year := parts.getD 2 (str "undefined")
  year ++ ['-'] ++ month ++ ['-'] ++ day

/-- DynamoDB `PutCommand` on the bin table: replaces the item keyed
`(date, service)`. -/
def putBinItem (table : List BinItem) (item : BinItem) : List BinItem :=
  table.filter
    (fun it => !(decide (it.date = item.date) && decide (it.service = item.service))) ++ [item]

/-- `BinCollectionDbService.upsertBinCollection(date, service,
collectionData)` (lines 31-66): builds the item and performs an
unconditional put. -/
def upsertBinCollection (table : List BinItem) (now : Nat) (date service : Str)
    (c : RawCollection) : List BinItem :=
  putBinItem table
    { date := date, service := service, day := c.day.getD [], round := c.round.getD [],
      schedule := c.schedule.getD [], updatedAt := now }

/-- `BinCollectionDbService.storeBinCollections(collections)` (lines
117-144) with every write succeeding: sequential per-entry upserts by the
converted natural key; returns the running count and the final table. -/
def storeBinCollections (table : List BinItem) (now : Nat) :
    List RawCollection → Nat × List BinItem
  | [] => (0, table)
  | c :: rest =>
    let table1 := upsertBinCollection table now (convertRawDate c.date) c.service c
    let r := storeBinCollections table1 now rest
    (r.1 + 1, r.2)

/-- `storeBinCollections` with the DynamoDB send outcome of each entry
injected (`send i = some e` means the put of the i-th entry, 0-based,
throws `e`; the surrounding catch blocks log and rethrow, so the error
propagates and iteration stops). -/
def storeBinCollectionsWith (send : Nat → Option JsError) :
    Nat → List BinItem → Nat → List RawCollection → Except JsError Nat × List BinItem
  | _, table, _, [] => (Except.ok 0, table)
  | idx, table, now, c :: rest =>
    match send idx with
    | some e => (Except.error e, table)
    | none =>
      let table1 := upsertBinCollection table now (convertRawDate c.date) c.service c
      match storeBinCollectionsWith send (idx + 1) table1 now rest with
      | (Except.ok n, t) => (Except.ok (n + 1), t)
      | (Except.error e, t) => (Except.error e, t)

/-- Number of stored records with natural key `(d, s)`. -/
def keyCount (table : List BinItem) (d s : Str) : Nat :=
  (table.filter (fun it => decide (it.date = d) && decide (it.service = s))).length

/-- A put leaves exactly one record under its own key and the counts of
other keys unchanged. -/
theorem keyCount_put (table : List BinItem) (item : BinItem) (d s : Str) :
    keyCount (putBinItem table item) d s =
      if item.date = d ∧ item.service = s then 1 else keyCount table d s := by
  rw [keyCount, putBinItem, List.filter_append, List.filter_filter]
  by_cases h : item.date = d ∧ item.service = s
  · rw [if_pos h]
    have h1 : table.filter (fun it =>
        (decide (it.date = d) && decide (it.service = s)) &&
        !(decide (it.date = item.date) && decide (it.service = item.service))) = [] := by
      apply List.filter_eq_nil_iff.mpr
      intro a _
      simp [h.1, h.2]
    rw [h1]
    simp [h.1, h.2]
  · rw [if_neg h]
    have h2 : List.filter (fun it => decide (it.date = d) && decide (it.service = s)) [item]
        = [] := by
      have hfalse : (decide (item.date = d) && decide (item.service = s)) = false := by
        by_cases h3 : item.date = d
        · have h4 : ¬item.service = s := fun hs => h ⟨h3, hs⟩
          simp [h3, h4]
        · simp [h3]
      simp [List.filter, hfalse]
    rw [h2, List.append_nil]
    congr 1
    apply List.filter_congr
    intro a _
    by_cases ha1 : a.date = d
    · by_cases ha2 : a.service = s
      · by_cases hb1 : a.date = item.date
        · have hb2 : ¬a.service = item.service := by
            intro hb2
            apply h
            exact ⟨by rw [← hb1]; exact ha1, by rw [← hb2]; exact ha2⟩
          simp [ha1, ha2, hb1, hb2]
          right
          intro hs
          exact hb2 (ha2.trans hs)
        · simp [ha1, ha2, hb1]
          left
          intro hd
          exact hb1 (ha1.trans hd)
      · simp [ha2]
    · simp [ha1]

/-- After a batch store, a key written by some entry has exactly one
record; untouched keys keep their counts. -/
theorem keyCount_store (cs : List RawCollection) : ∀ (table : List BinItem) (now : Nat)
    (d s : Str),
    keyCount (storeBinCollections table now cs).2 d s =
      if cs.any (fun c => decide (convertRawDate c.date = d) && decide (c.service = s))
      then 1 else keyCount table d s := by
  induction cs with
  | nil => intro table now d s; simp [storeBinCollections]
  | cons c rest ih =>
    intro table now d s
    have hstep : (storeBinCollections table now (c :: rest)).2 =
        (storeBinCollections
          (upsertBinCollection table now (convertRawDate c.date) c.service c) now rest).2 := rfl
    rw [hstep, ih]
    rw [upsertBinCollection, keyCount_put]
    simp only [List.any_cons]
    by_cases hrest :
        rest.any (fun x => decide (convertRawDate x.date = d) && decide (x.service = s))
    · simp [hrest]
    · by_cases hc : convertRawDate c.date = d ∧ c.service = s
      · simp [hrest, hc.1, hc.2]
      · have : ¬(convertRawDate c.date = d ∧ c.service = s) := hc
        rcases Decidable.not_and_iff_or_not.mp this with h3 | h3 <;>
          simp [hrest, h3, hc]

/-- The count returned by a fully successful batch store is the input
length. -/
theorem storeBinCollections_count (cs : List RawCollection) :
    ∀ (table : List BinItem) (now : Nat), (storeBinCollections table now cs).1 = cs.length := by
  induction cs with
  | nil => intro table now; rfl
  | cons c rest ih =>
    intro table now
    show (storeBinCollections _ now rest).1 + 1 = rest.length + 1
    rw [ih]

end BinCollectionDbService

namespace BinCollectionDbService

/-- When all sends up to the k-th succeed and the k-th send throws, the
failure-aware batch store returns the error and the table holding exactly
the first k entries' writes. -/
theorem storeBinCollectionsWith_fail (send : Nat → Option JsError) (e : JsError) (now : Nat) :
    ∀ (k idx : Nat) (cs : List RawCollection) (table : List BinItem),
      send (idx + k) = some e → (∀ i, i < k → send (idx + i) = none) → k < cs.length →
      storeBinCollectionsWith send idx table now cs =
        (Except.error e, (storeBinCollections table now (cs.take k)).2) := by
  intro k
  induction k with
  | zero =>
    intro idx cs table hk _ hlen
    match cs, hlen with
    | c :: rest, _ =>
      have h0 : send idx = some e := by simpa using hk
      simp [storeBinCollectionsWith, h0, storeBinCollections]
  | succ k ih =>
    intro idx cs table hk hprev hlen
    match cs, hlen with
    | c :: rest, hlen =>
      have h0 : send idx = none := by simpa using hprev 0 (Nat.succ_pos k)
      have hk1 : send (idx + 1 + k) = some e := by
        have harith : idx + 1 + k = idx + (k + 1) := by omega
        rw [harith]
        exact hk
      have hprev1 : ∀ i, i < k → send (idx + 1 + i) = none := by
        intro i hi
        have harith : idx + 1 + i = idx + (i + 1) := by omega
        rw [harith]
        exact hprev (i + 1) (by omega)
      have hrec := ih (idx + 1) rest
        (upsertBinCollection table now (convertRawDate c.date) c.service c)
        hk1 hprev1 (by simpa using Nat.lt_of_succ_lt_succ hlen)
      simp only [storeBinCollectionsWith, h0]
      rw [hrec]
      rfl

end BinCollectionDbService

/-! ## Claims C6 and C10 -/

/-- C6: `storeMany` is idempotent — for every raw collection list whose
writes all succeed, running `storeBinCollections` twice with the same
list leaves exactly one stored record per `(date, serviceName)` key
(date converted from `DD/MM/YYYY HH:MM:SS` to `YYYY-MM-DD`), and each run
returns a count equal to the list's length. -/
theorem C6_storeMany_idempotent (table : List BinItem) (now1 now2 : Nat)
    (cs : List BinCollectionDbService.RawCollection)
    (c : BinCollectionDbService.RawCollection) (hc : c ∈ cs) :
    (BinCollectionDbService.storeBinCollections table now1 cs).1 = cs.length ∧
    (BinCollectionDbService.storeBinCollections
      (BinCollectionDbService.storeBinCollections table now1 cs).2 now2 cs).1 = cs.length ∧
    BinCollectionDbService.keyCount
      (BinCollectionDbService.storeBinCollections
        (BinCollectionDbService.storeBinCollections table now1 cs).2 now2 cs).2
      (BinCollectionDbService.convertRawDate c.date) c.service = 1 := by
  have hany : cs.any (fun x =>
      decide (BinCollectionDbService.convertRawDate x.date =
        BinCollectionDbService.convertRawDate c.date) && decide (x.service = c.service))
      = true :=
    List.any_eq_true.mpr ⟨c, hc, by simp⟩
  refine ⟨BinCollectionDbService.storeBinCollections_count cs table now1,
    BinCollectionDbService.storeBinCollections_count cs _ now2, ?_⟩
  rw [BinCollectionDbService.keyCount_store, if_pos hany]

/-- Closed witness for C6 at a concrete raw entry. -/
theorem C6_witness :
    BinCollectionDbService.keyCount
      (BinCollectionDbService.storeBinCollections
        (BinCollectionDbService.storeBinCollections [] 0
          [⟨str "Recycling Collection Service", str "03/02/2026 00:00:00",
            none, none, none⟩]).2 1
        [⟨str "Recycling Collection Service", str "03/02/2026 00:00:00",
          none, none, none⟩]).2
      (BinCollectionDbService.convertRawDate (str "03/02/2026 00:00:00"))
      (str "Recycling Collection Service") = 1 :=
  (C6_storeMany_idempotent [] 0 1
    [⟨str "Recycling Collection Service", str "03/02/2026 00:00:00", none, none, none⟩]
    ⟨str "Recycling Collection Service", str "03/02/2026 00:00:00", none, none, none⟩
    (List.mem_singleton.mpr rfl)).2.2

/-- C10: `storeMany` is not atomic on failure — if the k-th entry's write
(0-based index here) throws, the error propagates to the caller with no
count, and the table keeps exactly the earlier entries' writes (no
rollback). -/
theorem C10_storeMany_not_atomic (send : Nat → Option JsError) (e : JsError) (k : Nat)
    (table : List BinItem) (now : Nat) (cs : List BinCollectionDbService.RawCollection)
    (hk : send k = some e) (hprev : ∀ i, i < k → send i = none) (hlen : k < cs.length) :
    BinCollectionDbService.storeBinCollectionsWith send 0 table now cs =
      (Except.error e,
        (BinCollectionDbService.storeBinCollections table now (cs.take k)).2) :=
  BinCollectionDbService.storeBinCollectionsWith_fail send e now k 0 cs table
    (by simpa using hk) (fun i hi => by simpa using hprev i hi) hlen

/-- Closed witness for C10: the second of two entries fails; the first
remains stored and the error is returned. -/
theorem C10_witness :
    BinCollectionDbService.storeBinCollectionsWith
      (fun i => if i = 1 then some ⟨str "boom", str "trace"⟩ else none) 0 [] 7
      [⟨str "Recycling Collection Service", str "03/02/2026 00:00:00", none, none, none⟩,
       ⟨str "Food Waste Collection Service", str "03/02/2026 00:00:00", none, none, none⟩] =
      (Except.error ⟨str "boom", str "trace"⟩,
        (BinCollectionDbService.storeBinCollections [] 7
          ([⟨str "Recycling Collection Service", str "03/02/2026 00:00:00", none, none, none⟩,
            ⟨str "Food Waste Collection Service", str "03/02/2026 00:00:00",
              none, none, none⟩].take 1)).2) :=
  C10_storeMany_not_atomic
    (fun i => if i = 1 then some ⟨str "boom", str "trace"⟩ else none)
    ⟨str "boom", str "trace"⟩ 1 [] 7 _ rfl (by decide) (by decide)

/-! ## BinCollectionService (CollectionFetcher)
Source: `src/src/services/binCollectionDbService.js` lines 148-366
(`fetchBinCollections`, `isCacheValid`).  The module-level cache is the
explicit state; the axios call result is injected (`none` models a
transport failure / timeout; a response with `success: false` is thrown
and caught inside the function, landing in the same fallback). -/

namespace BinCollectionService

/-- Source constant `CACHE_TTL_HOURS = 12` (default). -/
def CACHE_TTL_HOURS : Nat := 12

/-- The module-level `cache = { data, timestamp }`. -/
structure CacheState where
  data : Option (List BinCollectionDbService.RawCollection)
  timestamp : Option Nat
deriving DecidableEq, Repr

/-- Parsed body of the Reading API response. -/
structure ApiResponse where
  success : Bool
  collections : List BinCollectionDbService.RawCollection
deriving Repr

/-- `BinCollectionService.isCacheValid()` (lines 341-355). -/
def isCacheValid (cache : CacheState) (now : Nat) : Bool :=
  match cache.data, cache.timestamp with
  | some _, some ts => decide (now - ts < CACHE_TTL_HOURS * 60 * 60 * 1000)
  | _, _ => false

/-- The catch-block fallback of `fetchBinCollections`: expired cache if
present, else the empty list. -/
def fetchFallback (cache : CacheState) :
    List BinCollectionDbService.RawCollection × CacheState :=
  match cache.data with
  | some d => (d, cache)
  | none => ([], cache)

/-- `BinCollectionService.fetchBinCollections()` (lines 178-224): valid
cache short-circuits; a successful response replaces the cache; any
failure (transport or `success: false`) falls back; never throws. -/
def fetchBinCollections (cache : CacheState) (now : Nat) (resp : Option ApiResponse) :
    List BinCollectionDbService.RawCollection × CacheState :=
  if isCacheValid cache now then (cache.data.getD [], cache)
  else
    match resp with
    | some r =>
      if r.success then (r.collections, ⟨some r.collections, some now⟩)
      else fetchFallback cache
    | none => fetchFallback cache

/-- A failing external call: no response, or a response whose success
flag is false. -/
def apiFailed (resp : Option ApiResponse) : Bool :=
  match resp with
  | none => true
  | some r => !r.success

end BinCollectionService

/-! ## Claim C4 -/

/-- C4: for every cache state, when the external schedule call fails
(transport failure or `success: false`), `fetch()` returns the empty
list if no cached list exists and returns the cached list if one exists
(even one older than the freshness threshold); the function is total, so
no error propagates to the caller. -/
theorem C4_fetch_fail_soft (cache : BinCollectionService.CacheState) (now : Nat)
    (resp : Option BinCollectionService.ApiResponse)
    (hfail : BinCollectionService.apiFailed resp = true) :
    (cache.data = none →
      (BinCollectionService.fetchBinCollections cache now resp).1 = []) ∧
    (∀ d, cache.data = some d →
      (BinCollectionService.fetchBinCollections cache now resp).1 = d) := by
  open BinCollectionService in
  constructor
  · intro hnone
    rw [BinCollectionService.fetchBinCollections.eq_def]
    have hvalid : isCacheValid cache now = false := by
      rw [isCacheValid, hnone]
    rw [if_neg (by simp [hvalid])]
    match resp, hfail with
    | none, _ => simp [BinCollectionService.fetchFallback, hnone]
    | some r, hfail =>
      have hs : r.success = false := by simpa [BinCollectionService.apiFailed] using hfail
      simp [hs, BinCollectionService.fetchFallback, hnone]
  · intro d hd
    rw [BinCollectionService.fetchBinCollections.eq_def]
    by_cases hvalid : isCacheValid cache now = true
    · rw [if_pos hvalid]
      simp [hd]
    · rw [if_neg hvalid]
      match resp, hfail with
      | none, _ => simp [BinCollectionService.fetchFallback, hd]
      | some r, hfail =>
        have hs : r.success = false := by simpa [BinCollectionService.apiFailed] using hfail
        simp [hs, BinCollectionService.fetchFallback, hd]

/-- Closed witness for C4: a stale cache (12h TTL long expired) is
returned when the call fails. -/
theorem C4_witness :
    (BinCollectionService.fetchBinCollections
      ⟨some [⟨str "Recycling Collection Service", str "03/02/2026 00:00:00",
        none, none, none⟩], some 0⟩
      100000000 none).1 =
      [⟨str "Recycling Collection Service", str "03/02/2026 00:00:00", none, none, none⟩] :=
  (C4_fetch_fail_soft
    ⟨some [⟨str "Recycling Collection Service", str "03/02/2026 00:00:00",
      none, none, none⟩], some 0⟩
    100000000 none rfl).2
    [⟨str "Recycling Collection Service", str "03/02/2026 00:00:00", none, none, none⟩] rfl

/-! ## Quote0ClientService (DevicePusher)
Source: `src/src/services/quote0ClientService.js` lines 8-121.  The axios
POST outcome of each attempt is injected as an oracle (`outcome n = true`
means attempt `n` got a 2xx response); the observable behaviour is the
trace of attempts and `sleep` calls.  The function returns the trace for
every input — mirroring that `updateDisplay` swallows all errors. -/

namespace Quote0ClientService

/-- Source constant `MAX_RETRIES = 3`. -/
def MAX_RETRIES : Nat := 3

/-- Source constant `INITIAL_RETRY_DELAY = 1000` (milliseconds). -/
def INITIAL_RETRY_DELAY : Nat := 1000

/-- Environment configuration `QUOTE0_TEXT_API` / `QUOTE0_AUTH_TOKEN`
(`none` models unset or empty, both falsy in the source guards). -/
structure PushConfig where
  api : Option Str
  token : Option Str
deriving DecidableEq, Repr

/-- Observable side effects of `updateDisplay`: an HTTP attempt (with its
outcome) or a backoff sleep in milliseconds. -/
inductive PushAction where
  | attempt (n : Nat) (ok : Bool)
  | sleep (ms : Nat)
deriving DecidableEq, Repr

/-- Recursive body of `updateDisplay(displayData, attempt)`: on failure,
if `attempt < MAX_RETRIES` sleep `INITIAL_RETRY_DELAY * 2^(attempt-1)`
and recurse with `attempt + 1`; otherwise return (the error is logged,
never rethrown).  The fuel argument only bounds the recursion; it is
spent one unit per retry and the top-level call passes `MAX_RETRIES`,
which the guard `attempt < MAX_RETRIES` never exhausts. -/
def updateDisplayGo (outcome : Nat → Bool) : Nat → Nat → List PushAction
  | 0, _ => []
  | fuel + 1, attempt =>
    if outcome attempt then [PushAction.attempt attempt true]
    else if attempt < MAX_RETRIES then
      PushAction.attempt attempt false ::
        PushAction.sleep (INITIAL_RETRY_DELAY * 2 ^ (attempt - 1)) ::
        updateDisplayGo outcome fuel (attempt + 1)
    else [PushAction.attempt attempt false]

/-- `Quote0ClientService.updateDisplay(displayData)`: unset endpoint or
token short-circuits with no attempt; otherwise the retry loop starts at
attempt 1.  Total for every payload — no exception escapes. -/
def updateDisplay (cfg : PushConfig) (outcome : Nat → Bool)
    (displayData : DisplayFormatterService.DisplayData) : List PushAction :=
  match cfg.api with
  | none => []
  | some _ =>
    match cfg.token with
    | none => []
    | some _ => updateDisplayGo outcome MAX_RETRIES 1

/-- Number of HTTP attempts in a push trace. -/
def numAttempts (tr : List PushAction) : Nat :=
  tr.countP (fun a => match a with
    | PushAction.attempt _ _ => true
    | _ => false)

/-- The inter-attempt delays of a push trace, in order. -/
def sleepDelays (tr : List PushAction) : List Nat :=
  tr.filterMap (fun a => match a with
    | PushAction.sleep ms => some ms
    | _ => none)

/-- Whether some attempt in the trace succeeded. -/
def pushSucceeded (tr : List PushAction) : Bool :=
  tr.any (fun a => match a with
    | PushAction.attempt _ ok => ok
    | _ => false)

end Quote0ClientService

/-! ## Claim C3 -/

/-- C3: when the endpoint and token are configured and every delivery
attempt fails, `updateDisplay` makes exactly 3 HTTP attempts, sleeping at
least 1 second before the second attempt and at least 2 seconds before
the third (the code sleeps exactly 1000 ms and 2000 ms), and returns
normally — the function is total, so no exception escapes for any
payload. -/
theorem C3_push_retry_schedule (api token : Str) (outcome : Nat → Bool)
    (displayData : DisplayFormatterService.DisplayData)
    (hfail : ∀ n, outcome n = false) :
    Quote0ClientService.numAttempts
      (Quote0ClientService.updateDisplay ⟨some api, some token⟩ outcome displayData) = 3 ∧
    ∃ d1 d2,
      Quote0ClientService.sleepDelays
        (Quote0ClientService.updateDisplay ⟨some api, some token⟩ outcome displayData)
        = [d1, d2] ∧ 1000 ≤ d1 ∧ 2000 ≤ d2 := by
  have htr : Quote0ClientService.updateDisplay ⟨some api, some token⟩ outcome displayData =
      [Quote0ClientService.PushAction.attempt 1 false,
       Quote0ClientService.PushAction.sleep 1000,
       Quote0ClientService.PushAction.attempt 2 false,
       Quote0ClientService.PushAction.sleep 2000,
       Quote0ClientService.PushAction.attempt 3 false] := by
    show Quote0ClientService.updateDisplayGo outcome
      Quote0ClientService.MAX_RETRIES 1 = _
    simp [Quote0ClientService.updateDisplayGo, hfail,
      Quote0ClientService.MAX_RETRIES, Quote0ClientService.INITIAL_RETRY_DELAY]
  rw [htr]
  exact ⟨rfl, 1000, 2000, rfl, by omega, by omega⟩

/-- Closed witness for C3 at a concrete configuration, payload and
all-failing outcome oracle. -/
theorem C3_witness :
    Quote0ClientService.numAttempts
      (Quote0ClientService.updateDisplay ⟨some (str "api"), some (str "tok")⟩
        (fun _ => false) ⟨true, str "2026/02/02", str "\n\n", []⟩) = 3 :=
  (C3_push_retry_schedule (str "api") (str "tok") (fun _ => false)
    ⟨true, str "2026/02/02", str "\n\n", []⟩ (fun _ => rfl)).1

/-! ## Claim C7 -/

/-- C7 counterexample: in scenario A (no events, one collection entry for
tomorrow named "Recycling Collection Service"), the rendered collection
line is not the claimed `"collect Red bin tmr"` — the mapped signature
path capitalises the wrapper as `Collect ... tmr`. -/
theorem C7_counterexample :
    DisplayFormatterService.formatSignatureFromDb
      [⟨str "2026-02-03", str "Recycling Collection Service", str "Tuesday", [], [], 0⟩]
      ≠ str "collect Red bin tmr" := by decide

/-- C7 amended: with no stored events and exactly one collection entry
for tomorrow whose serviceName is "Recycling Collection Service", the
rendered collection line reads exactly `"Collect Red bin tmr"` (the
friendly-name mapping applied, wrapped with a capitalised `Collect`), and
all three body lines are empty. -/
theorem C7_scenario_collect_red_bin :
    (DisplayFormatterService.formatDisplayFromDb ⟨2026, 2, 2⟩ []
      [⟨str "2026-02-03", str "Recycling Collection Service", str "Tuesday", [], [], 0⟩]
      ).signature = str "Collect Red bin tmr" ∧
    (DisplayFormatterService.formatDisplayFromDb ⟨2026, 2, 2⟩ []
      [⟨str "2026-02-03", str "Recycling Collection Service", str "Tuesday", [], [], 0⟩]
      ).message = List.intercalate ['\n'] [[], [], []] := by
  constructor
  · decide
  · decide

/-! ## ScheduledUpdateService (UpdateOrchestrator)
Source: `src/src/services/scheduledUpdateService.js` `executeUpdate`
(lines 23-122).  The awaited calls are injected: the fetch result (the
fetcher never throws, see C4), the store outcome, and the two query
outcomes.  The returned pair carries the run result and the device-push
trace (empty when the catch block fires before step 6).  `duration` and
`timestamp` are wall-clock readouts with no control-flow effect and are
not modelled. -/

namespace ScheduledUpdateService

/-- The metrics snapshot of a successful run. -/
structure RunMetrics where
  binCollectionsFetched : Nat
  binCollectionsStored : Nat
  tomorrowCollections : Nat
  eventsFound : Nat
  displayData : DisplayFormatterService.DisplayData
deriving DecidableEq, Repr

/-- The run result record returned by `executeUpdate`. -/
structure RunResult where
  success : Bool
  error : Option Str
  stack : Option Str
  metrics : Option RunMetrics
deriving DecidableEq, Repr

/-- `ScheduledUpdateService.executeUpdate()`: steps 1-6 in sequence
inside one try block; any thrown error lands in the catch block, which
returns `success: false` with the error message and stack. -/
def executeUpdate (fetched : List BinCollectionDbService.RawCollection)
    (storeRes : Except JsError Nat)
    (tomorrowRes : Except JsError (List BinItem))
    (eventsRes : Except JsError (List EventItem))
    (today : DisplayFormatterService.DateYMD)
    (cfg : Quote0ClientService.PushConfig) (outcome : Nat → Bool) :
    RunResult × List Quote0ClientService.PushAction :=
  match storeRes with
  | Except.error e =>
    ({ success := false, error := some e.message, stack := some e.stack, metrics := none }, [])
  | Except.ok storedCount =>
    match tomorrowRes with
    | Except.error e =>
      ({ success := false, error := some e.message, stack := some e.stack, metrics := none }, [])
    | Except.ok tomorrowCollections =>
      match eventsRes with
      | Except.error e =>
        ({ success := false, error := some e.message, stack := some e.stack, metrics := none },
          [])
      | Except.ok events =>
        let displayData :=
          DisplayFormatterService.formatDisplayFromDb today events tomorrowCollections
        let pushTrace := Quote0ClientService.updateDisplay cfg outcome displayData
        ({ success := true, error := none, stack := none,
           metrics := some
             { binCollectionsFetched := fetched.length, binCollectionsStored := storedCount,
               tomorrowCollections := tomorrowCollections.length,
               eventsFound := events.length, displayData := displayData } }, pushTrace)

end ScheduledUpdateService

/-! ## Claim C5 -/

/-- C5: if a storage query (tomorrow's collections or today's events)
throws inside the scheduled run, the run returns a result with `success =
false` carrying the underlying error message and stack, and no device
push attempt is made; the orchestrator is total, so the exception does
not propagate. -/
theorem C5_query_failure_aborts_run
    (fetched : List BinCollectionDbService.RawCollection) (storedCount : Nat)
    (tomorrowRes : Except JsError (List BinItem))
    (eventsRes : Except JsError (List EventItem))
    (today : DisplayFormatterService.DateYMD)
    (cfg : Quote0ClientService.PushConfig) (outcome : Nat → Bool) (e : JsError)
    (hq : tomorrowRes = Except.error e ∨
      (∃ l, tomorrowRes = Except.ok l ∧ eventsRes = Except.error e)) :
    (ScheduledUpdateService.executeUpdate fetched (Except.ok storedCount) tomorrowRes
      eventsRes today cfg outcome).1.success = false ∧
    (ScheduledUpdateService.executeUpdate fetched (Except.ok storedCount) tomorrowRes
      eventsRes today cfg outcome).1.error = some e.message ∧
    (ScheduledUpdateService.executeUpdate fetched (Except.ok storedCount) tomorrowRes
      eventsRes today cfg outcome).1.stack = some e.stack ∧
    (ScheduledUpdateService.executeUpdate fetched (Except.ok storedCount) tomorrowRes
      eventsRes today cfg outcome).2 = [] := by
  rcases hq with h | ⟨l, hl, he⟩
  · subst h
    exact ⟨rfl, rfl, rfl, rfl⟩
  · subst hl
    subst he
    exact ⟨rfl, rfl, rfl, rfl⟩

/-- Closed witness for C5: the events query throws in a scheduled run. -/
theorem C5_witness :
    (ScheduledUpdateService.executeUpdate [] (Except.ok 0) (Except.ok [])
      (Except.error ⟨str "Query failed", str "at QueryCommand"⟩) ⟨2026, 2, 2⟩
      ⟨none, none⟩ (fun _ => false)).1.success = false ∧
    (ScheduledUpdateService.executeUpdate [] (Except.ok 0) (Except.ok [])
      (Except.error ⟨str "Query failed", str "at QueryCommand"⟩) ⟨2026, 2, 2⟩
      ⟨none, none⟩ (fun _ => false)).2 = [] :=
  have h := C5_query_failure_aborts_run [] 0 (Except.ok [])
    (Except.error ⟨str "Query failed", str "at QueryCommand"⟩) ⟨2026, 2, 2⟩
    ⟨none, none⟩ (fun _ => false) ⟨str "Query failed", str "at QueryCommand"⟩
    (Or.inr ⟨[], rfl, rfl⟩)
  ⟨h.1, h.2.2.2⟩

/-! ## Lambda handler for POST /api/events
Source: `src/src/lambda/handlers.js` `exports.createEvent` (lines
19-154).  JSON parsing and auth live in the excluded routing layer; the
body is taken as already parsed.  The DynamoDB put outcome and the two
query outcomes of the follow-up display update are injected; the push
trace of the inner update block is returned as the third component (the
response construction ignores it, exactly as the source does). -/

namespace Handlers

/-- Parsed request body `{date, event}`. -/
structure ReqBody where
  date : Str
  event : Str
deriving DecidableEq, Repr

/-- Date normalisation `date.replace(/\//g, '-')`. -/
def normalizeDate (d : Str) : Str :=
  d.map (fun c => if c = '/' then '-' else c)

/-- The regex test `/^\d{4}-\d{2}-\d{2}$/.test(normalizedDate)`. -/
def isValidDateFormat : Str → Bool
  | [y1, y2, y3, y4, h1, m1, m2, h2, d1, d2] =>
    y1.isDigit && y2.isDigit && y3.isDigit && y4.isDigit && (h1 == '-') &&
      m1.isDigit && m2.isDigit && (h2 == '-') && d1.isDigit && d2.isDigit
  | _ => false

/-- Injected I/O outcomes of one handler invocation. -/
structure HandlerDeps where
  createRes : Except JsError Unit
  tomorrowRes : Except JsError (List BinItem)
  eventsRes : Except JsError (List EventItem)
  pushCfg : Quote0ClientService.PushConfig
  pushOutcome : Nat → Bool

/-- Shape of the HTTP response produced by the handler (`item` carries
the JSON-serialised created record of a 201 body; `quote0Updated` the
`quote0_updated` field). -/
structure HandlerResponse where
  statusCode : Nat
  item : Option EventItem
  quote0Updated : Option Bool
  errorMessage : Option Str
deriving DecidableEq, Repr

/-- `exports.createEvent(event)`: validations, then the DynamoDB create,
then the inner try block (queries, format, push) whose failure is caught
and ignored, then the 201 response spreading the created item together
with the literal `quote0_updated: true`. -/
def createEventHandler (db : DynamoDbService.Db) (now : Nat)
    (today : DisplayFormatterService.DateYMD) (req : ReqBody) (deps : HandlerDeps) :
    HandlerResponse × DynamoDbService.Db × List Quote0ClientService.PushAction :=
  if req.date.isEmpty then
    ({ statusCode := 400, item := none, quote0Updated := none,
       errorMessage := some (str "Missing required field: date") }, db, [])
  else if req.event.isEmpty then
    ({ statusCode := 400, item := none, quote0Updated := none,
       errorMessage := some (str "Missing required field: event") }, db, [])
  else
    let normalizedDate := normalizeDate req.date
    if !isValidDateFormat normalizedDate then
      ({ statusCode := 400, item := none, quote0Updated := none,
         errorMessage := some (str "Invalid date format. Use YYYY/MM/DD or YYYY-MM-DD") },
        db, [])
    else if req.event.length > 87 then
      ({ statusCode := 422, item := none, quote0Updated := none,
         errorMessage := some (str "Event text exceeds maximum length of 87 characters") },
        db, [])
    else
      match deps.createRes with
      | Except.error e =>
        ({ statusCode := 500, item := none, quote0Updated := none,
           errorMessage := some e.message }, db, [])
      | Except.ok _ =>
        let created := DynamoDbService.createEvent db normalizedDate req.event now
        let pushTrace :=
          match deps.tomorrowRes with
          | Except.error _ => []
          | Except.ok binCollections =>
            match deps.eventsRes with
            | Except.error _ => []
            | Except.ok events =>
              Quote0ClientService.updateDisplay deps.pushCfg deps.pushOutcome
                (DisplayFormatterService.formatDisplayFromDb today events binCollections)
        ({ statusCode := 201, item := some created.1, quote0Updated := some true,
           errorMessage := none }, created.2, pushTrace)

end Handlers

/-! ## Claim C8 -/

/-- C8 counterexample: a valid, successfully stored reminder-creation
request whose device push fails on all three attempts still gets
`quote0_updated: true` in its 201 response — the flag does not indicate
the push outcome. -/
theorem C8_counterexample :
    (Handlers.createEventHandler ⟨[], 0⟩ 0 ⟨2026, 2, 2⟩
      ⟨str "2026-02-02", str "call dentist"⟩
      ⟨Except.ok (), Except.ok [], Except.ok [],
        ⟨some (str "api"), some (str "tok")⟩, fun _ => false⟩).1.quote0Updated
      = some true ∧
    Quote0ClientService.pushSucceeded
      ((Handlers.createEventHandler ⟨[], 0⟩ 0 ⟨2026, 2, 2⟩
        ⟨str "2026-02-02", str "call dentist"⟩
        ⟨Except.ok (), Except.ok [], Except.ok [],
          ⟨some (str "api"), some (str "tok")⟩, fun _ => false⟩).2.2) = false := by
  constructor
  · decide
  · decide

/-- C8 amended: for every valid reminder-creation request whose DynamoDB
write succeeds, the response reports success (status 201 with the stored
record) regardless of the push outcome, and the `quote0_updated` flag is
hardcoded to `true` — it does not reflect whether the push succeeded. -/
theorem C8_flag_hardcoded_true (db : DynamoDbService.Db) (now : Nat)
    (today : DisplayFormatterService.DateYMD) (req : Handlers.ReqBody)
    (deps : Handlers.HandlerDeps)
    (hdate : req.date ≠ []) (hevent : req.event ≠ [])
    (hfmt : Handlers.isValidDateFormat (Handlers.normalizeDate req.date) = true)
    (hlen : req.event.length ≤ 87) (hcreate : deps.createRes = Except.ok ()) :
    (Handlers.createEventHandler db now today req deps).1.statusCode = 201 ∧
    (Handlers.createEventHandler db now today req deps).1.item =
      some (DynamoDbService.createEvent db (Handlers.normalizeDate req.date)
        req.event now).1 ∧
    (Handlers.createEventHandler db now today req deps).1.quote0Updated = some true := by
  have h1 : req.date.isEmpty = false := by
    cases hd : req.date with
    | nil => exact absurd hd hdate
    | cons a l => rfl
  have h2 : req.event.isEmpty = false := by
    cases hd : req.event with
    | nil => exact absurd hd hevent
    | cons a l => rfl
  have h3 : ¬req.event.length > 87 := by omega
  simp only [Handlers.createEventHandler, h1, h2, hfmt, hcreate]
  simp [h3]

/-- Closed witness for the amended C8 at a concrete valid request. -/
theorem C8_witness :
    (Handlers.createEventHandler ⟨[], 5⟩ 9 ⟨2026, 2, 2⟩
      ⟨str "2026/02/02", str "water plants"⟩
      ⟨Except.ok (), Except.error ⟨str "query down", str "trace"⟩, Except.ok [],
        ⟨none, none⟩, fun _ => true⟩).1.statusCode = 201 :=
  (C8_flag_hardcoded_true ⟨[], 5⟩ 9 ⟨2026, 2, 2⟩
    ⟨str "2026/02/02", str "water plants"⟩
    ⟨Except.ok (), Except.error ⟨str "query down", str "trace"⟩, Except.ok [],
      ⟨none, none⟩, fun _ => true⟩
    (by decide) (by decide) (by decide) (by decide) rfl).1
